import Mathlib

/-! Overview.
Verification development for the desktop git-worktree backend
(`git.rs`, `git_rpc.rs`, `watch.rs`).  Pure functions are translated
directly; stateful operations are modelled by explicit state passing;
external collaborators (libgit2, serde's line parser, the diff module,
the filesystem) appear as oracle parameters so that every claim is
settled for all possible collaborator behaviours.
-/

namespace Forks

/-! Section: Ref validation (`git.rs`, `validate_git_ref`) -/

/-- Is an `Except` value a success?  (Rust `Result::is_ok`.) -/
def exceptOk {ε α : Type _} : Except ε α → Bool
  | Except.ok _ => true
  | Except.error _ => false

/-- Forbidden characters in git refs, from the `GIT_REF_FORBIDDEN` constant. -/
def GIT_REF_FORBIDDEN : List Char :=
  [' ', '~', '^', ':', '?', '*', '[', ']', '\\', '@', '{']

/-- Does the character list contain the two-character sequence `a b`
(adjacent)?  Mirrors Rust `str::contains` applied to a two-byte pattern. -/
def has_pair (a b : Char) : List Char → Bool
  | [] => false
  | [_] => false
  | x :: y :: rest => (x == a && y == b) || has_pair a b (y :: rest)

/-- Split a character list on `'/'`, exactly like Rust `str::split('/')`:
`"a/"` yields `["a", ""]` and the empty string yields `[""]`. -/
def split_components : List Char → List (List Char)
  | [] => [[]]
  | c :: rest =>
    if c == '/' then [] :: split_components rest
    else
      match split_components rest with
      | [] => [[c]]
      | comp :: comps => (c :: comp) :: comps

/-- Is a path component empty, or does it start or end with `'.'`? -/
def component_bad (c : List Char) : Bool :=
  c.isEmpty || c.head? == some '.' || c.getLast? == some '.'

/-- Translation of `validate_git_ref` from `git.rs`.  Note that Rust
`name.len()` is the UTF-8 byte length, modelled by `String.utf8ByteSize`. -/
def validate_git_ref (name : String) : Except String Unit :=
  if name.data.isEmpty || decide (name.utf8ByteSize > 256) then
    Except.error "invalid ref: empty or too long"
  else if name.data.head? == some '-' then
    Except.error "invalid ref: starts with dash"
  else if List.isSuffixOf ['.', 'l', 'o', 'c', 'k'] name.data then
    Except.error "invalid ref: ends with .lock"
  else if has_pair '/' '/' name.data then
    Except.error "invalid ref: contains consecutive slashes"
  else if has_pair '@' '{' name.data then
    Except.error "invalid ref: contains @\x7b"
  else if name.data.any (fun ch => decide (ch.toNat ≤ 0x1f) || ch.toNat == 0x7f) then
    Except.error "invalid ref: contains control character"
  else if name.data.any (fun ch => GIT_REF_FORBIDDEN.contains ch) then
    Except.error "invalid ref: contains forbidden character"
  else if (split_components name.data).any component_bad then
    Except.error "invalid ref: invalid path component"
  else
    Except.ok ()

/-- The rejection predicate exactly as the spec words it, with the length
limit read as a limit on the number of characters. -/
def ref_spec_rejects_chars (s : String) : Bool :=
  s.data.isEmpty || decide (s.data.length > 256) ||
  s.data.head? == some '-' ||
  List.isSuffixOf ['.', 'l', 'o', 'c', 'k'] s.data ||
  has_pair '/' '/' s.data ||
  has_pair '@' '{' s.data ||
  s.data.any (fun ch => decide (ch.toNat ≤ 0x1f) || ch.toNat == 0x7f) ||
  s.data.any (fun ch => GIT_REF_FORBIDDEN.contains ch) ||
  (split_components s.data).any component_bad

/-- The rejection predicate as the spec words it, with the length limit
read (as the code implements it) as a limit on the UTF-8 byte length. -/
def ref_spec_rejects_bytes (s : String) : Bool :=
  s.data.isEmpty || decide (s.utf8ByteSize > 256) ||
  s.data.head? == some '-' ||
  List.isSuffixOf ['.', 'l', 'o', 'c', 'k'] s.data ||
  has_pair '/' '/' s.data ||
  has_pair '@' '{' s.data ||
  s.data.any (fun ch => decide (ch.toNat ≤ 0x1f) || ch.toNat == 0x7f) ||
  s.data.any (fun ch => GIT_REF_FORBIDDEN.contains ch) ||
  (split_components s.data).any component_bad

/-- A 65-character string of 4-byte characters: 65 characters but 260
UTF-8 bytes.  Every single character is a plain letter-like symbol. -/
def wide65 : String := String.mk (List.replicate 65 '𝕏')

/-! Section: Status mapping (`git.rs`, `status_to_kind` / `git_status`) -/

/-- The status bits that `status_to_kind` inspects (from `git2::Status`). -/
structure GitStatus where
  is_conflicted : Bool
  is_index_deleted : Bool
  is_wt_deleted : Bool
  is_index_new : Bool
  is_wt_new : Bool
  is_index_renamed : Bool
  is_wt_renamed : Bool
  is_index_typechange : Bool
  is_wt_typechange : Bool
  is_index_modified : Bool
  is_wt_modified : Bool
deriving DecidableEq

/-- Translation of `status_to_kind` from `git.rs`: a chain of early
returns, first matching check winning. -/
def status_to_kind (status : GitStatus) : Option String :=
  if status.is_conflicted then some "conflicted"
  else if status.is_index_deleted || status.is_wt_deleted then some "deleted"
  else if status.is_index_new then some "added"
  else if status.is_wt_new then some "untracked"
  else if status.is_index_renamed || status.is_wt_renamed then some "renamed"
  else if status.is_index_typechange || status.is_wt_typechange then some "typechange"
  else if status.is_index_modified || status.is_wt_modified then some "modified"
  else none

/-- The spec's priority table, highest priority first. -/
def status_kind_priority (s : GitStatus) : List (Bool × String) :=
  [(s.is_conflicted, "conflicted"),
   (s.is_index_deleted || s.is_wt_deleted, "deleted"),
   (s.is_index_new, "added"),
   (s.is_wt_new, "untracked"),
   (s.is_index_renamed || s.is_wt_renamed, "renamed"),
   (s.is_index_typechange || s.is_wt_typechange, "typechange"),
   (s.is_index_modified || s.is_wt_modified, "modified")]

/-- "First match wins" over the spec's priority table. -/
def status_kind_first_match (s : GitStatus) : Option String :=
  (status_kind_priority s).findSome? (fun p => if p.1 then some p.2 else none)

/-- The loop body of `git_status` from `git.rs`: entries with an empty
path or with no matching status kind are omitted. -/
def git_status_entries (statuses : List (String × GitStatus)) : List (String × String) :=
  statuses.filterMap (fun e =>
    if e.1.isEmpty then none
    else (status_to_kind e.2).map (fun k => (e.1, k)))

/-- A status value with exactly the index-modified bit set. -/
def index_modified_only : GitStatus :=
  ⟨false, false, false, false, false, false, false, false, false, true, false⟩

/-- A status value with every bit set, conflicted included. -/
def all_bits_set : GitStatus :=
  ⟨true, true, true, true, true, true, true, true, true, true, true⟩

/-! Section: Repository cache (`git.rs`, `RepoCache`) -/

/-- TTL for cached repository handles, in seconds. -/
def REPO_CACHE_TTL_SECS : Nat := 30

/-- Maximum number of cached repository handles. -/
def REPO_CACHE_MAX_SIZE : Nat := 16

/-- The cache state: canonical path mapped to the `last_used` instant.
The native repository handle itself carries no information the claims
need, so an entry is just its key and timestamp. -/
structure RepoCacheState where
  entries : List (String × Nat)
deriving DecidableEq

/-- Model of `RepoCache::evict_stale`: retain entries whose idle time is below the
TTL.  `Nat` subtraction saturates at zero exactly like
`Instant::duration_since` for a later `last_used`. -/
def evict_stale (st : RepoCacheState) (now ttl : Nat) : RepoCacheState :=
  ⟨st.entries.filter (fun e => decide (now - e.2 < ttl))⟩

/-- The entry with minimal `last_used`, first such entry winning ties,
mirroring `min_by_key` over the map iteration. -/
def oldest_entry : List (String × Nat) → Option (String × Nat)
  | [] => none
  | e :: rest =>
    match oldest_entry rest with
    | none => some e
    | some m => if m.2 < e.2 then some m else some e

/-- Model of `RepoCache::evict_oldest`: remove the entry with the oldest
`last_used`, if any. -/
def evict_oldest (st : RepoCacheState) : RepoCacheState :=
  match oldest_entry st.entries with
  | none => st
  | some m => ⟨st.entries.filter (fun e => e.1 != m.1)⟩

/-- The `while len >= MAX` eviction loop, with explicit fuel; calling it
with the current number of entries as fuel reproduces the Rust loop. -/
def evict_loop : Nat → RepoCacheState → RepoCacheState
  | 0, st => st
  | fuel + 1, st =>
    if st.entries.length ≥ REPO_CACHE_MAX_SIZE then evict_loop fuel (evict_oldest st)
    else st

/-- Refresh `last_used` of the entry with the given key. -/
def touch (es : List (String × Nat)) (c : String) (now : Nat) : List (String × Nat) :=
  es.map (fun e => if e.1 == c then (e.1, now) else e)

/-- The part of `RepoCache::get_or_open` after the two eviction passes:
canonicalize, open and insert if absent, refresh `last_used`. -/
def open_and_insert (canon : String → Except String String)
    (openRepo : String → Except String Unit)
    (now : Nat) (path : String) (st2 : RepoCacheState) :
    Except String String × RepoCacheState :=
  match canon path with
  | Except.error e => (Except.error e, st2)
  | Except.ok canonical =>
    if st2.entries.any (fun e => e.1 == canonical) then
      (Except.ok canonical, ⟨touch st2.entries canonical now⟩)
    else
      match openRepo canonical with
      | Except.error e => (Except.error e, st2)
      | Except.ok _ =>
        (Except.ok canonical, ⟨touch (st2.entries ++ [(canonical, now)]) canonical now⟩)

/-- The two eviction passes that `get_or_open` performs before touching
the requested path: stale eviction, then the capacity loop. -/
def evict_passes (now : Nat) (st : RepoCacheState) : RepoCacheState :=
  evict_loop (evict_stale st now REPO_CACHE_TTL_SECS).entries.length
    (evict_stale st now REPO_CACHE_TTL_SECS)

/-- Model of `RepoCache::get_or_open`, with filesystem canonicalization and
repository opening (`Repository::open` / `discover`) as oracles.  The
result is the canonical path whose cached handle the caller borrows. -/
def get_or_open (canon : String → Except String String)
    (openRepo : String → Except String Unit)
    (now : Nat) (path : String) (st : RepoCacheState) :
    Except String String × RepoCacheState :=
  open_and_insert canon openRepo now path (evict_passes now st)

/-- Run a sequence of `get_or_open` calls (path, time pairs) with identity
canonicalization and an always-successful opener, keeping only the state. -/
def run_seq (calls : List (String × Nat)) (st : RepoCacheState) : RepoCacheState :=
  calls.foldl (fun s pc => (get_or_open Except.ok (fun _ => Except.ok ()) pc.2 pc.1 s).2) st

/-- Seventeen distinct repository paths accessed at strictly increasing
times: one more than the cache capacity. -/
def seventeen_calls : List (String × Nat) :=
  [("p01", 1), ("p02", 2), ("p03", 3), ("p04", 4), ("p05", 5), ("p06", 6),
   ("p07", 7), ("p08", 8), ("p09", 9), ("p10", 10), ("p11", 11), ("p12", 12),
   ("p13", 13), ("p14", 14), ("p15", 15), ("p16", 16), ("p17", 17)]

/-! Section: Branch deletion (`git.rs`, `git_delete_branch`) -/

/-- The resolved `repo.head()` reference: its name (`"HEAD"` when
detached) and the commit id it points at. -/
structure HeadInfo where
  name : String
  oid : String
deriving DecidableEq

/-- The repository as `git_delete_branch` observes it: the reference
store, the resolved HEAD (an `Err` models an unborn HEAD), and the
`graph_ahead_behind` computation of the underlying git library. -/
structure RepoModel where
  refs : List (String × String)
  head : Except String HeadInfo
  ahead_behind : String → String → Except String (Nat × Nat)

/-- Model of `repo.find_reference(name)`. -/
def find_reference (r : RepoModel) (name : String) : Except String (String × String) :=
  match r.refs.find? (fun e => e.1 == name) with
  | some e => Except.ok e
  | none => Except.error "reference not found"

/-- Model of `reference.delete()`: remove the named reference from the store. -/
def delete_reference (r : RepoModel) (name : String) : RepoModel :=
  ⟨r.refs.filter (fun e => e.1 != name), r.head, r.ahead_behind⟩

/-- Translation of `git_delete_branch` from `git.rs`: validate the name,
look up `refs/heads/<branch>`, then either delete immediately (force) or
refuse when the branch is checked out or not fully merged. -/
def git_delete_branch (r : RepoModel) (branch : String) (force : Option Bool) :
    Except String Unit × RepoModel :=
  match validate_git_ref branch with
  | Except.error e => (Except.error e, r)
  | Except.ok _ =>
    match find_reference r ("refs/heads/" ++ branch) with
    | Except.error e => (Except.error e, r)
    | Except.ok refEntry =>
      if force.getD false then
        (Except.ok (), delete_reference r refEntry.1)
      else
        match r.head with
        | Except.error e => (Except.error e, r)
        | Except.ok h =>
          if h.name == refEntry.1 then
            (Except.error "cannot delete checked out branch", r)
          else
            match r.ahead_behind refEntry.2 h.oid with
            | Except.error e => (Except.error e, r)
            | Except.ok ab =>
              if ab.1 > 0 then (Except.error "branch is not fully merged", r)
              else (Except.ok (), delete_reference r refEntry.1)

/-- A repository whose only branch has a name the validator rejects. -/
def repo_with_lock_branch : RepoModel :=
  ⟨[("refs/heads/x.lock", "oid1")],
   Except.ok ⟨"refs/heads/main", "oid0"⟩,
   fun _ _ => Except.ok (0, 0)⟩

/-! Section: Repository probe (`git.rs`, `git_is_repo` / `open_repo`) -/

/-- Model of `open_repo`: `Repository::discover` with the filesystem and git
library behaviour abstracted as an oracle. -/
def open_repo (discover : String → Except String Unit) (path : String) :
    Except String Unit :=
  discover path

/-- Translation of `git_is_repo`: wrap the success of `open_repo` as a
boolean, never propagating the failure. -/
def git_is_repo (discover : String → Except String Unit) (path : String) :
    Except String Bool :=
  Except.ok (exceptOk (open_repo discover path))

/-- A repository with `main` checked out and a `dev` branch that is one
commit ahead of HEAD. -/
def repo_checked_out : RepoModel :=
  ⟨[("refs/heads/main", "oidA"), ("refs/heads/dev", "oidB")],
   Except.ok ⟨"refs/heads/main", "oidA"⟩,
   fun x _ => if x == "oidB" then Except.ok (1, 0) else Except.ok (0, 0)⟩

/-- A discovery oracle that always fails. -/
def discover_fail : String → Except String Unit :=
  fun _ => Except.error "could not find repository"

/-! Section: RPC server (`git_rpc.rs`) -/

/-- A model of `serde_json::Value` (numbers restricted to integers, which
covers every numeric parameter the protocol uses). -/
inductive Json where
  | null : Json
  | bool (b : Bool) : Json
  | num (n : Int) : Json
  | str (s : String) : Json
  | arr (items : List Json) : Json
  | obj (fields : List (String × Json)) : Json

/-- The wire request `{id, method, params}`. -/
structure RpcRequest where
  id : String
  method : String
  params : Json

/-- The wire response `{id, ok, result|null, error|null}`. -/
structure RpcResponse where
  id : String
  ok : Bool
  result : Option Json
  error : Option String

/-- Look a field up in a JSON object. -/
def json_field : List (String × Json) → String → Option Json
  | [], _ => none
  | f :: rest, k => if f.1 == k then some f.2 else json_field rest k

/-- Deserialize a required `String` field (wrong type or absence fails). -/
def req_str (fields : List (String × Json)) (k : String) : Option String :=
  match json_field fields k with
  | some (Json.str s) => some s
  | _ => none

/-- Deserialize an `Option<String>` field: absent or null is `None`; a
present non-string value is a parse failure. -/
def opt_str (fields : List (String × Json)) (k : String) : Option (Option String) :=
  match json_field fields k with
  | none => some none
  | some Json.null => some none
  | some (Json.str s) => some (some s)
  | some _ => none

/-- Deserialize an `Option<bool>` field. -/
def opt_bool (fields : List (String × Json)) (k : String) : Option (Option Bool) :=
  match json_field fields k with
  | none => some none
  | some Json.null => some none
  | some (Json.bool b) => some (some b)
  | some _ => none

/-- Deserialize an `Option<usize>` field (a negative number fails). -/
def opt_usize (fields : List (String × Json)) (k : String) : Option (Option Nat) :=
  match json_field fields k with
  | none => some none
  | some Json.null => some none
  | some (Json.num n) => if n < 0 then none else some (some n.toNat)
  | some _ => none

structure PathParam where
  path : String

structure RepoPathParam where
  repo_path : String

structure BranchExistsParam where
  repo_path : String
  branch : String

structure CreateBranchParam where
  repo_path : String
  branch : String
  start_point : Option String

structure CreateWorktreeParam where
  repo_path : String
  path : String
  branch : String
  create_branch : Option Bool

structure RemoveWorktreeParam where
  worktree_path : String
  force : Option Bool

structure DeleteBranchParam where
  repo_path : String
  branch : String
  force : Option Bool

structure ResetHardParam where
  repo_path : String
  git_ref : String

structure DiffRequest where
  original : String
  modified : String
  context_lines : Option Nat

def parse_path_param : Json → Option PathParam
  | Json.obj fs => (req_str fs "path").map PathParam.mk
  | _ => none

def parse_repo_path_param : Json → Option RepoPathParam
  | Json.obj fs => (req_str fs "repoPath").map RepoPathParam.mk
  | _ => none

def parse_branch_exists_param : Json → Option BranchExistsParam
  | Json.obj fs =>
    match req_str fs "repoPath", req_str fs "branch" with
    | some r, some b => some ⟨r, b⟩
    | _, _ => none
  | _ => none

def parse_create_branch_param : Json → Option CreateBranchParam
  | Json.obj fs =>
    match req_str fs "repoPath", req_str fs "branch", opt_str fs "startPoint" with
    | some r, some b, some sp => some ⟨r, b, sp⟩
    | _, _, _ => none
  | _ => none

def parse_create_worktree_param : Json → Option CreateWorktreeParam
  | Json.obj fs =>
    match req_str fs "repoPath", req_str fs "path", req_str fs "branch",
        opt_bool fs "createBranch" with
    | some r, some p, some b, some cb => some ⟨r, p, b, cb⟩
    | _, _, _, _ => none
  | _ => none

def parse_remove_worktree_param : Json → Option RemoveWorktreeParam
  | Json.obj fs =>
    match req_str fs "worktreePath", opt_bool fs "force" with
    | some w, some f => some ⟨w, f⟩
    | _, _ => none
  | _ => none

def parse_delete_branch_param : Json → Option DeleteBranchParam
  | Json.obj fs =>
    match req_str fs "repoPath", req_str fs "branch", opt_bool fs "force" with
    | some r, some b, some f => some ⟨r, b, f⟩
    | _, _, _ => none
  | _ => none

def parse_reset_hard_param : Json → Option ResetHardParam
  | Json.obj fs =>
    match req_str fs "repoPath", req_str fs "gitRef" with
    | some r, some g => some ⟨r, g⟩
    | _, _ => none
  | _ => none

def parse_diff_request : Json → Option DiffRequest
  | Json.obj fs =>
    match req_str fs "original", req_str fs "modified", opt_usize fs "contextLines" with
    | some o, some m, some cl => some ⟨o, m, cl⟩
    | _, _, _ => none
  | _ => none

/-- The git and diff operations the RPC handlers call, as oracles: their
behaviour involves the filesystem and the git library, and the protocol
claims hold for every behaviour. -/
structure GitOps where
  git_is_repo : String → Except String Bool
  git_repo_root : String → Except String String
  git_default_branch : String → Except String String
  git_current_branch : String → Except String String
  git_branch_exists : String → String → Except String Bool
  git_create_branch : String → String → Option String → Except String Unit
  git_list_worktrees : String → Except String Json
  git_create_worktree : String → String → String → Bool → Except String Unit
  git_remove_worktree : String → Option Bool → Except String Unit
  git_delete_branch : String → String → Option Bool → Except String Unit
  git_current_commit : String → Except String String
  git_reset_hard : String → String → Except String Unit
  git_status : String → Except String Json
  git_changed_files : String → Except String Json
  unified_diff : String → String → Nat → String

/-- Model of `parse_and_execute`: deserialize the parameter shape, mapping failure
to the `invalid_params` protocol error. -/
def parse_and_execute {P : Type} (parse : Json → Option P)
    (handler : P → Except String Json) (params : Json) : Except String Json :=
  match parse params with
  | none => Except.error "invalid_params"
  | some p => handler p

/-- The method dispatch table of `handle_request`. -/
def dispatch (ops : GitOps) (request : RpcRequest) : Except String Json :=
  match request.method with
  | "git_is_repo" => parse_and_execute parse_path_param
      (fun p => (ops.git_is_repo p.path).map Json.bool) request.params
  | "git_repo_root" => parse_and_execute parse_path_param
      (fun p => (ops.git_repo_root p.path).map Json.str) request.params
  | "git_default_branch" => parse_and_execute parse_repo_path_param
      (fun p => (ops.git_default_branch p.repo_path).map Json.str) request.params
  | "git_current_branch" => parse_and_execute parse_path_param
      (fun p => (ops.git_current_branch p.path).map Json.str) request.params
  | "git_branch_exists" => parse_and_execute parse_branch_exists_param
      (fun p => (ops.git_branch_exists p.repo_path p.branch).map Json.bool) request.params
  | "git_create_branch" => parse_and_execute parse_create_branch_param
      (fun p => (ops.git_create_branch p.repo_path p.branch p.start_point).map
        (fun _ => Json.null)) request.params
  | "git_list_worktrees" => parse_and_execute parse_repo_path_param
      (fun p => ops.git_list_worktrees p.repo_path) request.params
  | "git_create_worktree" => parse_and_execute parse_create_worktree_param
      (fun p => (ops.git_create_worktree p.repo_path p.path p.branch
        (p.create_branch.getD false)).map (fun _ => Json.null)) request.params
  | "git_remove_worktree" => parse_and_execute parse_remove_worktree_param
      (fun p => (ops.git_remove_worktree p.worktree_path p.force).map
        (fun _ => Json.null)) request.params
  | "git_delete_branch" => parse_and_execute parse_delete_branch_param
      (fun p => (ops.git_delete_branch p.repo_path p.branch p.force).map
        (fun _ => Json.null)) request.params
  | "git_current_commit" => parse_and_execute parse_repo_path_param
      (fun p => (ops.git_current_commit p.repo_path).map Json.str) request.params
  | "git_reset_hard" => parse_and_execute parse_reset_hard_param
      (fun p => (ops.git_reset_hard p.repo_path p.git_ref).map
        (fun _ => Json.null)) request.params
  | "git_status" => parse_and_execute parse_repo_path_param
      (fun p => ops.git_status p.repo_path) request.params
  | "git_changed_files" => parse_and_execute parse_repo_path_param
      (fun p => ops.git_changed_files p.repo_path) request.params
  | "diff_unified" => parse_and_execute parse_diff_request
      (fun p => Except.ok (Json.str (ops.unified_diff p.original p.modified
        (min (p.context_lines.getD 3) 200)))) request.params
  | _ => Except.error "unknown_method"

/-- Wrap a handler result into the response object, as the final `match`
of `handle_request` does. -/
def wrap_response (id : String) : Except String Json → RpcResponse
  | Except.ok value => ⟨id, true, some value, none⟩
  | Except.error e => ⟨id, false, none, some e⟩

/-- Translation of `handle_request` from `git_rpc.rs`. -/
def handle_request (ops : GitOps) (request : RpcRequest) : RpcResponse :=
  wrap_response request.id (dispatch ops request)

/-- The method names present in the dispatch table. -/
def RPC_METHODS : List String :=
  ["git_is_repo", "git_repo_root", "git_default_branch", "git_current_branch",
   "git_branch_exists", "git_create_branch", "git_list_worktrees",
   "git_create_worktree", "git_remove_worktree", "git_delete_branch",
   "git_current_commit", "git_reset_hard", "git_status", "git_changed_files",
   "diff_unified"]

/-- Does the request's `params` value deserialize into the parameter
shape that the method's dispatch entry binds? -/
def params_shape_ok (method : String) (params : Json) : Bool :=
  match method with
  | "git_is_repo" => (parse_path_param params).isSome
  | "git_repo_root" => (parse_path_param params).isSome
  | "git_default_branch" => (parse_repo_path_param params).isSome
  | "git_current_branch" => (parse_path_param params).isSome
  | "git_branch_exists" => (parse_branch_exists_param params).isSome
  | "git_create_branch" => (parse_create_branch_param params).isSome
  | "git_list_worktrees" => (parse_repo_path_param params).isSome
  | "git_create_worktree" => (parse_create_worktree_param params).isSome
  | "git_remove_worktree" => (parse_remove_worktree_param params).isSome
  | "git_delete_branch" => (parse_delete_branch_param params).isSome
  | "git_current_commit" => (parse_repo_path_param params).isSome
  | "git_reset_hard" => (parse_reset_hard_param params).isSome
  | "git_status" => (parse_repo_path_param params).isSome
  | "git_changed_files" => (parse_repo_path_param params).isSome
  | "diff_unified" => (parse_diff_request params).isSome
  | _ => false

/-- Is a line blank?  `line.trim().is_empty()` holds exactly when every
character of the line is whitespace. -/
def blank (line : String) : Bool := line.data.all (fun c => c.isWhitespace)

/-- The response computed for one non-blank line: parse it as a request
and handle it, or answer the `unknown`-id parse-failure response. -/
def response_for (parse : String → Except String RpcRequest) (ops : GitOps)
    (line : String) : RpcResponse :=
  match parse line with
  | Except.ok request => handle_request ops request
  | Except.error err => ⟨"unknown", false, none, some err⟩

/-- Translation of `handle_stream` from `git_rpc.rs`: the connection is a
list of line-read results (`serde_json::from_str` appears as the `parse`
oracle); the output is the single written response, or `none` when the
connection is abandoned without a response. -/
def handle_stream (parse : String → Except String RpcRequest) (ops : GitOps) :
    List (Except String String) → Option RpcResponse
  | [] => none
  | Except.error _ :: _ => none
  | Except.ok line :: rest =>
    if blank line then handle_stream parse ops rest
    else some (response_for parse ops line)

/-- A `GitOps` instance whose operations all fail; the protocol-layer
claims do not depend on handler behaviour. -/
def ops0 : GitOps :=
  ⟨fun _ => Except.error "unused", fun _ => Except.error "unused",
   fun _ => Except.error "unused", fun _ => Except.error "unused",
   fun _ _ => Except.error "unused", fun _ _ _ => Except.error "unused",
   fun _ => Except.error "unused", fun _ _ _ _ => Except.error "unused",
   fun _ _ => Except.error "unused", fun _ _ _ => Except.error "unused",
   fun _ => Except.error "unused", fun _ _ => Except.error "unused",
   fun _ => Except.error "unused", fun _ => Except.error "unused",
   fun _ _ _ => ""⟩

/-- A line parser that always fails, standing in for `serde_json` on an
unparseable line. -/
def parse_fail : String → Except String RpcRequest :=
  fun _ => Except.error "bad json"

/-! Section: Filesystem watch pipeline (`watch.rs`) -/

/-- Model of `notify::EventKind`, at the granularity `kind_label` distinguishes. -/
inductive EventKind where
  | create
  | modify
  | remove
  | access
  | any
  | other
deriving DecidableEq

/-- A native filesystem event: its kind and its paths, each path given by
its components. -/
structure FsEvent where
  kind : EventKind
  paths : List (List String)
deriving DecidableEq

/-- Cap on accumulated pending paths per debounce window. -/
def MAX_PENDING_PATHS : Nat := 10000

def DEFAULT_IGNORED_DIRS : List String :=
  [".git", "node_modules", "dist", "build", "target", ".turbo", ".context",
   ".tauri", ".next", "out", "coverage", ".cache"]

/-- The per-watch filter configuration (paths as component lists). -/
structure FilterConfig where
  worktree_path : List String
  git_dir : Option (List String)
  ignored_dirs : List String

def kind_label : EventKind → String
  | EventKind.create => "create"
  | EventKind.modify => "modify"
  | EventKind.remove => "remove"
  | EventKind.access => "access"
  | EventKind.any => "any"
  | EventKind.other => "other"

/-- Model of `is_relevant_kind`: everything but pure access events. -/
def is_relevant_kind (kind : EventKind) : Bool := !(kind == EventKind.access)

/-- Model of `is_allowed_git_path`: relative to the git dir, exactly `HEAD`,
`index`, `packed-refs`, or anything under `refs/`. -/
def is_allowed_git_path (path gitDir : List String) : Bool :=
  if List.isPrefixOf gitDir path then
    (path.drop gitDir.length == ["HEAD"]) ||
    (path.drop gitDir.length == ["index"]) ||
    (path.drop gitDir.length == ["packed-refs"]) ||
    ((path.drop gitDir.length).head? == some "refs")
  else false

/-- Does some path component belong to the ignored-directory set? -/
def has_ignored_component (path : List String) (ignored : List String) : Bool :=
  path.any (fun c => ignored.contains c)

/-- Model of `should_emit_path`: paths under the git dir pass only the git
allow-list; all other paths pass unless a component is ignored. -/
def should_emit_path (path : List String) (filter : FilterConfig) : Bool :=
  match filter.git_dir with
  | some gitDir =>
    if List.isPrefixOf gitDir path then is_allowed_git_path path gitDir
    else !has_ignored_component path filter.ignored_dirs
  | none => !has_ignored_component path filter.ignored_dirs

/-- Model of `format_event_path`: rewrite relative to the worktree root, or as
`.git/<relative>` under the git dir, else leave absolute. -/
def format_event_path (path worktree : List String)
    (gitDir : Option (List String)) : String :=
  if List.isPrefixOf worktree path then
    String.intercalate "/" (path.drop worktree.length)
  else
    match gitDir with
    | some g =>
      if List.isPrefixOf g path then
        String.intercalate "/" (".git" :: path.drop g.length)
      else "/" ++ String.intercalate "/" path
    | none => "/" ++ String.intercalate "/" path

/-- Model of `HashSet::insert` on a set kept as an insertion-ordered list. -/
def insert_set (s : List String) (x : String) : List String :=
  if x ∈ s then s else s ++ [x]

/-- The path loop of `collect_event`: the loop breaks as soon as the
accumulator is at capacity. -/
def insert_paths (filter : FilterConfig) (pending : List String) :
    List (List String) → List String
  | [] => pending
  | p :: rest =>
    if pending.length ≥ MAX_PENDING_PATHS then pending
    else if should_emit_path p filter then
      insert_paths filter
        (insert_set pending (format_event_path p filter.worktree_path filter.git_dir))
        rest
    else insert_paths filter pending rest

/-- Translation of `collect_event` from `watch.rs`, acting on the
`(pending_paths, pending_kinds)` accumulator pair. -/
def collect_event (event : FsEvent) (filter : FilterConfig)
    (pending : List String × List String) : List String × List String :=
  if !is_relevant_kind event.kind then pending
  else if pending.1.length ≥ MAX_PENDING_PATHS then
    (pending.1, insert_set pending.2 (kind_label event.kind))
  else
    (insert_paths filter pending.1 event.paths,
     insert_set pending.2 (kind_label event.kind))

/-- The emitted event payload (the fields the pipeline computes; the
constant per-watch metadata fields carry no information). -/
structure WatchPayload where
  paths : List String
  kinds : List String
deriving DecidableEq

/-- Translation of `flush_events`: nothing is emitted when no path
survived, and the accumulators are cleared either way. -/
def flush_events (pending : List String × List String) :
    Option WatchPayload × (List String × List String) :=
  if pending.1.isEmpty then (none, ([], []))
  else (some ⟨pending.1, pending.2⟩, ([], []))

/-- Fold `collect_event` over the events of one debounce window, as the
worker loop does between two flushes. -/
def run_events (filter : FilterConfig) (acc : List String × List String) :
    List FsEvent → List String × List String
  | [] => acc
  | ev :: rest => run_events filter (collect_event ev filter acc) rest

/-- Accumulate one debounce window's burst of events. -/
def collect_burst (filter : FilterConfig) (events : List FsEvent) :
    List String × List String :=
  run_events filter ([], []) events

/-- One full debounce window: accumulate the burst, then flush once when
the window elapses; the result is the emitted payload, if any. -/
def process_burst (filter : FilterConfig) (events : List FsEvent) :
    Option WatchPayload :=
  (flush_events (collect_burst filter events)).1

/-- The path loop without the capacity cap (reference function for the
union characterization). -/
def insert_paths_unc (filter : FilterConfig) (pending : List String) :
    List (List String) → List String
  | [] => pending
  | p :: rest =>
    if should_emit_path p filter then
      insert_paths_unc filter
        (insert_set pending (format_event_path p filter.worktree_path filter.git_dir))
        rest
    else insert_paths_unc filter pending rest

/-- Variant of `collect_event` without the capacity cap. -/
def collect_event_unc (event : FsEvent) (filter : FilterConfig)
    (pending : List String × List String) : List String × List String :=
  if !is_relevant_kind event.kind then pending
  else
    (insert_paths_unc filter pending.1 event.paths,
     insert_set pending.2 (kind_label event.kind))

/-- Uncapped burst accumulation. -/
def run_events_unc (filter : FilterConfig) (acc : List String × List String) :
    List FsEvent → List String × List String
  | [] => acc
  | ev :: rest => run_events_unc filter (collect_event_unc ev filter acc) rest

/-- Burst accumulation without the capacity cap. -/
def collect_burst_unc (filter : FilterConfig) (events : List FsEvent) :
    List String × List String :=
  run_events_unc filter ([], []) events

/-- A plain watch on worktree root `r`, no git dir, default ignores. -/
def watch_filter0 : FilterConfig := ⟨["r"], none, DEFAULT_IGNORED_DIRS⟩

/-- A modify event on a source file inside the worktree. -/
def ev_src : FsEvent := ⟨EventKind.modify, [["r", "src", "a"]]⟩

/-- A modify event whose only path lies under `node_modules`. -/
def ev_ignored : FsEvent := ⟨EventKind.modify, [["r", "node_modules", "x"]]⟩

/-- A pending-path accumulator already at capacity. -/
def at_cap_paths : List String := List.replicate 10000 "f"

end Forks

namespace Forks

/-! Section: Helper lemmas -/

/-- Keys of a filtered entry list are a sublist of the original keys. -/
theorem keys_filter_sublist (es : List (String × Nat)) (p : String × Nat → Bool) :
    List.Sublist ((es.filter p).map Prod.fst) (es.map Prod.fst) :=
  (List.filter_sublist es).map Prod.fst

/-- Lemma: `touch` never changes the keys. -/
theorem keys_touch (es : List (String × Nat)) (c : String) (now : Nat) :
    (touch es c now).map Prod.fst = es.map Prod.fst := by
  unfold touch
  rw [List.map_map]
  apply List.map_congr_left
  intro e _
  by_cases h : e.1 = c <;> simp [h]

/-- Lemma: `evict_stale` preserves key distinctness. -/
theorem evict_stale_nodup (st : RepoCacheState) (now ttl : Nat)
    (h : (st.entries.map Prod.fst).Nodup) :
    ((evict_stale st now ttl).entries.map Prod.fst).Nodup :=
  (keys_filter_sublist _ _).nodup h

/-- Lemma: `evict_oldest` preserves key distinctness. -/
theorem evict_oldest_nodup (st : RepoCacheState)
    (h : (st.entries.map Prod.fst).Nodup) :
    ((evict_oldest st).entries.map Prod.fst).Nodup := by
  unfold evict_oldest
  cases oldest_entry st.entries with
  | none => exact h
  | some m => exact (keys_filter_sublist _ _).nodup h

/-- The eviction loop preserves key distinctness. -/
theorem evict_loop_nodup (fuel : Nat) (st : RepoCacheState)
    (h : (st.entries.map Prod.fst).Nodup) :
    ((evict_loop fuel st).entries.map Prod.fst).Nodup := by
  induction fuel generalizing st with
  | zero => exact h
  | succ n ih =>
    unfold evict_loop
    split
    · exact ih _ (evict_oldest_nodup st h)
    · exact h

/-- The oldest entry is a member of the list. -/
theorem oldest_entry_mem (es : List (String × Nat)) (m : String × Nat)
    (h : oldest_entry es = some m) : m ∈ es := by
  induction es generalizing m with
  | nil => simp [oldest_entry] at h
  | cons e rest ih =>
    unfold oldest_entry at h
    cases hm : oldest_entry rest with
    | none => rw [hm] at h; simp at h; simp [h]
    | some m2 =>
      rw [hm] at h
      by_cases hlt : m2.2 < e.2
      · simp [hlt] at h; subst h; exact List.mem_cons_of_mem _ (ih m2 hm)
      · simp [hlt] at h; simp [h]

/-- A filter that drops at least one member strictly shrinks a list. -/
theorem length_filter_lt_of_mem {α : Type _} (p : α → Bool) (l : List α) (x : α)
    (hx : x ∈ l) (hpx : p x = false) : (l.filter p).length < l.length := by
  induction l with
  | nil => cases hx
  | cons a l ih =>
    rcases List.mem_cons.mp hx with rfl | hxl
    · rw [List.filter_cons, if_neg (by simp [hpx])]
      exact Nat.lt_succ_of_le (List.length_filter_le p l)
    · by_cases hpa : p a = true
      · rw [List.filter_cons, if_pos hpa, List.length_cons, List.length_cons]
        exact Nat.succ_lt_succ (ih hxl)
      · rw [List.filter_cons, if_neg hpa]
        exact Nat.lt_succ_of_lt (ih hxl)

/-- Lemma: `oldest_entry` of a nonempty list is some entry. -/
theorem oldest_entry_isSome (e : String × Nat) (rest : List (String × Nat)) :
    (oldest_entry (e :: rest)).isSome = true := by
  unfold oldest_entry
  cases oldest_entry rest with
  | none => rfl
  | some m => by_cases hlt : m.2 < e.2 <;> simp [hlt]

/-- Evicting the oldest entry of a nonempty list strictly shrinks it. -/
theorem evict_oldest_shrinks (st : RepoCacheState) (h : st.entries ≠ []) :
    (evict_oldest st).entries.length < st.entries.length := by
  unfold evict_oldest
  cases hm : oldest_entry st.entries with
  | none =>
    exfalso
    cases hes : st.entries with
    | nil => exact h hes
    | cons e rest =>
      have := oldest_entry_isSome e rest
      rw [← hes, hm] at this
      simp at this
  | some m =>
    have hmem := oldest_entry_mem st.entries m hm
    simp only []
    exact length_filter_lt_of_mem _ _ m hmem (by simp)

/-- With fuel at least `length - (MAX - 1)`, the eviction loop drives the
size strictly below capacity. -/
theorem evict_loop_length (fuel : Nat) (st : RepoCacheState)
    (h : st.entries.length ≤ fuel + (REPO_CACHE_MAX_SIZE - 1)) :
    (evict_loop fuel st).entries.length ≤ REPO_CACHE_MAX_SIZE - 1 := by
  induction fuel generalizing st with
  | zero => simpa using h
  | succ n ih =>
    unfold evict_loop
    split
    · next hge =>
      have hne : st.entries ≠ [] := by
        intro hnil
        rw [hnil] at hge
        simp [REPO_CACHE_MAX_SIZE] at hge
      have hdec := evict_oldest_shrinks st hne
      exact ih _ (by omega)
    · next hlt => omega

/-- The eviction passes preserve key distinctness and drive the size
strictly below capacity. -/
theorem evict_passes_invariant (now : Nat) (st : RepoCacheState)
    (hnd : (st.entries.map Prod.fst).Nodup) :
    ((evict_passes now st).entries.map Prod.fst).Nodup ∧
    (evict_passes now st).entries.length ≤ REPO_CACHE_MAX_SIZE - 1 := by
  unfold evict_passes
  constructor
  · exact evict_loop_nodup _ _ (evict_stale_nodup st now REPO_CACHE_TTL_SECS hnd)
  · exact evict_loop_length _ _ (by omega)

/-- Lemma: `open_and_insert` preserves key distinctness and, starting strictly
below capacity, keeps the size at or below capacity. -/
theorem open_and_insert_invariant (canon : String → Except String String)
    (openRepo : String → Except String Unit) (now : Nat) (path : String)
    (st2 : RepoCacheState)
    (hnd : (st2.entries.map Prod.fst).Nodup)
    (hlen : st2.entries.length ≤ REPO_CACHE_MAX_SIZE - 1) :
    (((open_and_insert canon openRepo now path st2).2.entries.map Prod.fst).Nodup ∧
     (open_and_insert canon openRepo now path st2).2.entries.length ≤ REPO_CACHE_MAX_SIZE) := by
  have hcap : (1 : Nat) ≤ REPO_CACHE_MAX_SIZE := by simp [REPO_CACHE_MAX_SIZE]
  cases hc : canon path with
  | error e =>
    simp only [open_and_insert, hc]
    exact ⟨hnd, by omega⟩
  | ok canonical =>
    by_cases hmem : st2.entries.any (fun e => e.1 == canonical) = true
    · simp only [open_and_insert, hc, hmem, if_true]
      refine ⟨by rw [keys_touch]; exact hnd, ?_⟩
      simp only [touch, List.length_map]
      omega
    · have hmem2 : st2.entries.any (fun e => e.1 == canonical) = false := by
        cases hval : st2.entries.any (fun e => e.1 == canonical)
        · rfl
        · exact absurd hval hmem
      cases ho : openRepo canonical with
      | error e =>
        simp only [open_and_insert, hc, hmem2, Bool.false_eq_true, if_false, ho]
        exact ⟨hnd, by omega⟩
      | ok u =>
        simp only [open_and_insert, hc, hmem2, Bool.false_eq_true, if_false, ho]
        constructor
        · rw [keys_touch, List.map_append]
          have hnotin : canonical ∉ st2.entries.map Prod.fst := by
            intro hin
            apply hmem
            rw [List.any_eq_true]
            rcases List.mem_map.mp hin with ⟨e, he, hfst⟩
            exact ⟨e, he, by simp [hfst]⟩
          simp [List.nodup_append, hnd, hnotin]
        · simp only [touch, List.length_map, List.length_append, List.length_cons,
            List.length_nil]
          omega

/-- Invariant preservation for a single `get_or_open` call: distinct keys
and the size bound survive, whatever the oracles do. -/
theorem get_or_open_invariant (canon : String → Except String String)
    (openRepo : String → Except String Unit) (now : Nat) (path : String)
    (st : RepoCacheState)
    (hnd : (st.entries.map Prod.fst).Nodup) :
    (((get_or_open canon openRepo now path st).2.entries.map Prod.fst).Nodup ∧
     (get_or_open canon openRepo now path st).2.entries.length ≤ REPO_CACHE_MAX_SIZE) := by
  have h2 := evict_passes_invariant now st hnd
  exact open_and_insert_invariant canon openRepo now path _ h2.1 h2.2

/-! Section: Theorems for C1 (ref validator) and C7 (status mapping) -/

/-- Claim C1 (amended): the ref validator accepts a string if and only if
none of the spec's rejection features is present, where the length limit
is on the UTF-8 byte length (not the character count). -/
theorem c1_validate_iff (s : String) :
    validate_git_ref s = Except.ok () ↔ ref_spec_rejects_bytes s = false := by
  unfold validate_git_ref ref_spec_rejects_bytes
  cases h1 : (s.data.isEmpty || decide (s.utf8ByteSize > 256)) <;>
  cases h2 : (s.data.head? == some '-') <;>
  cases h3 : List.isSuffixOf ['.', 'l', 'o', 'c', 'k'] s.data <;>
  cases h4 : has_pair '/' '/' s.data <;>
  cases h5 : has_pair '@' '{' s.data <;>
  cases h6 : s.data.any (fun ch => decide (ch.toNat ≤ 0x1f) || ch.toNat == 0x7f) <;>
  cases h7 : s.data.any (fun ch => GIT_REF_FORBIDDEN.contains ch) <;>
  cases h8 : (split_components s.data).any component_bad <;>
  simp [h1, h2, h3, h4, h5, h6, h7, h8]

/-- Witness for C1: the theorem applied at "feature/x" (accepted) shows the
spec predicate evaluates to false there. -/
theorem c1_validate_iff_witness :
    ref_spec_rejects_bytes "feature/x" = false :=
  (c1_validate_iff "feature/x").mp rfl

/-- Counterexample for C1 as stated: a 65-character string of 4-byte
characters has 260 UTF-8 bytes, so the code rejects it, while the claim's
character-count reading predicts acceptance. -/
theorem c1_counterexample :
    exceptOk (validate_git_ref wide65) = false ∧
    ref_spec_rejects_chars wide65 = false := by
  constructor
  · decide
  · decide

/-- Claim C7: `status_to_kind` equals first-match-wins over the spec's
priority list (conflicted, deleted, added, untracked, renamed, typechange,
modified); a conflicted status maps to "conflicted" regardless of other
bits; the exactly-index-modified status maps to "modified"; a status
matching no kind produces no entry in the status listing. -/
theorem c7_status_priority (s : GitStatus) :
    status_to_kind s = status_kind_first_match s ∧
    (s.is_conflicted = true → status_to_kind s = some "conflicted") ∧
    status_to_kind index_modified_only = some "modified" ∧
    (∀ pre post p, status_to_kind s = none →
      git_status_entries (pre ++ (p, s) :: post) = git_status_entries (pre ++ post)) := by
  refine ⟨?_, ?_, by decide, ?_⟩
  · unfold status_to_kind status_kind_first_match status_kind_priority List.findSome?
    repeat' split <;> simp_all
  · intro h
    simp [status_to_kind, h]
  · intro pre post p h
    simp [git_status_entries, List.filterMap_append, h]

/-- Witness for C7: applied at the all-bits-set status, whose kind is
"conflicted", together with the index-modified instance. -/
theorem c7_status_priority_witness :
    status_to_kind all_bits_set = some "conflicted" ∧
    status_to_kind index_modified_only = some "modified" :=
  ⟨(c7_status_priority all_bits_set).2.1 (by decide),
   (c7_status_priority all_bits_set).2.2.1⟩

/-! Section: Theorems for C2 and C8 (repository cache) -/

/-- Claim C2: for any call of `get_or_open` on a cache with distinct
canonical keys, the resulting cache again has distinct keys (one entry
per canonicalized path) and at most capacity (16) entries; moreover,
running capacity+1 distinct paths at increasing times from an empty cache
leaves exactly 16 entries with the oldest path `p01` evicted. -/
theorem c2_cache_bound :
    (∀ canon openRepo now path st,
      ((st : RepoCacheState).entries.map Prod.fst).Nodup →
      (((get_or_open canon openRepo now path st).2.entries.map Prod.fst).Nodup ∧
       (get_or_open canon openRepo now path st).2.entries.length ≤ REPO_CACHE_MAX_SIZE)) ∧
    ((run_seq seventeen_calls ⟨[]⟩).entries.length = 16 ∧
     (run_seq seventeen_calls ⟨[]⟩).entries.all (fun e => e.1 != "p01") = true) := by
  refine ⟨fun canon openRepo now path st hnd =>
    get_or_open_invariant canon openRepo now path st hnd, ?_, ?_⟩
  · decide
  · decide

/-- Witness for C2: the invariant applied to a concrete call on the empty
cache. -/
theorem c2_cache_bound_witness :
    (((get_or_open Except.ok (fun _ => Except.ok ()) 5 "w" ⟨[]⟩).2.entries.map
        Prod.fst).Nodup ∧
     (get_or_open Except.ok (fun _ => Except.ok ()) 5 "w"
        ⟨[]⟩).2.entries.length ≤ REPO_CACHE_MAX_SIZE) :=
  c2_cache_bound.1 Except.ok (fun _ => Except.ok ()) 5 "w" ⟨[]⟩ (by simp)

/-- Claim C8 (amended): `get_or_open` performs both eviction passes (stale
first, then the capacity loop) before canonicalizing the path; a
canonicalization failure surfaces as-is, but with the evictions already
applied to the cache. -/
theorem c8_eviction_order (canon : String → Except String String)
    (openRepo : String → Except String Unit) (now : Nat) (path : String)
    (st : RepoCacheState) (e : String) (h : canon path = Except.error e) :
    get_or_open canon openRepo now path st = (Except.error e, evict_passes now st) := by
  simp [get_or_open, open_and_insert, h]

/-- Witness for C8: a failing canonicalization on a cache holding one
stale entry. -/
theorem c8_eviction_order_witness :
    get_or_open (fun _ => Except.error "io") (fun _ => Except.ok ()) 31 "p" ⟨[("a", 0)]⟩ =
      (Except.error "io", evict_passes 31 ⟨[("a", 0)]⟩) :=
  c8_eviction_order (fun _ => Except.error "io") (fun _ => Except.ok ()) 31 "p"
    ⟨[("a", 0)]⟩ "io" rfl

/-- Counterexample for C8 as stated: with a stale entry in the cache and a
failing canonicalization, the call returns the error but the cache has
changed — the stale entry was evicted before canonicalization ran. -/
theorem c8_counterexample :
    get_or_open (fun _ => Except.error "io") (fun _ => Except.ok ()) 31 "p" ⟨[("a", 0)]⟩ =
      (Except.error "io", (⟨[]⟩ : RepoCacheState)) ∧
    (⟨[]⟩ : RepoCacheState) ≠ ⟨[("a", 0)]⟩ := by
  refine ⟨rfl, ?_⟩
  decide

/-! Section: Theorems for C4 (branch deletion) and C10 (repository probe) -/

/-- Claim C4 (amended): for every existing branch whose name passes ref
validation: without force, deleting the checked-out branch fails with the
conflict error, deleting a branch ahead of HEAD fails with the
not-fully-merged error, and both failures leave all references unchanged;
with force both checks are bypassed and the reference is deleted. -/
theorem c4_delete_branch (r : RepoModel) (b oid : String) (h : HeadInfo)
    (a bd : Nat)
    (hval : validate_git_ref b = Except.ok ())
    (hfind : find_reference r ("refs/heads/" ++ b) = Except.ok ("refs/heads/" ++ b, oid)) :
    ((r.head = Except.ok h → h.name = "refs/heads/" ++ b →
        git_delete_branch r b none = (Except.error "cannot delete checked out branch", r)) ∧
     (r.head = Except.ok h → h.name ≠ "refs/heads/" ++ b →
        r.ahead_behind oid h.oid = Except.ok (a, bd) → a > 0 →
        git_delete_branch r b none = (Except.error "branch is not fully merged", r)) ∧
     git_delete_branch r b (some true) =
        (Except.ok (), delete_reference r ("refs/heads/" ++ b))) := by
  refine ⟨?_, ?_, ?_⟩
  · intro hh hn
    simp [git_delete_branch, hval, hfind, hh, hn]
  · intro hh hn hab ha
    simp [git_delete_branch, hval, hfind, hh, hn, hab, ha]
  · simp [git_delete_branch, hval, hfind]

/-- Witness for C4: all three scenarios on a concrete repository. -/
theorem c4_delete_branch_witness :
    git_delete_branch repo_checked_out "main" none =
      (Except.error "cannot delete checked out branch", repo_checked_out) ∧
    git_delete_branch repo_checked_out "dev" none =
      (Except.error "branch is not fully merged", repo_checked_out) ∧
    git_delete_branch repo_checked_out "dev" (some true) =
      (Except.ok (), delete_reference repo_checked_out "refs/heads/dev") :=
  ⟨(c4_delete_branch repo_checked_out "main" "oidA" ⟨"refs/heads/main", "oidA"⟩ 0 0
      rfl rfl).1 rfl rfl,
   (c4_delete_branch repo_checked_out "dev" "oidB" ⟨"refs/heads/main", "oidA"⟩ 1 0
      rfl rfl).2.1 rfl (by decide) rfl (by decide),
   (c4_delete_branch repo_checked_out "dev" "oidB" ⟨"refs/heads/main", "oidA"⟩ 0 0
      rfl rfl).2.2⟩

/-- Counterexample for C4 as stated: an existing branch named `x.lock`
fails ref validation, so even with force the reference is not deleted —
the claim's "with force=true ... the reference is deleted" does not hold
for it. -/
theorem c4_counterexample :
    git_delete_branch repo_with_lock_branch "x.lock" (some true) =
      (Except.error "invalid ref: ends with .lock", repo_with_lock_branch) ∧
    ("refs/heads/x.lock", "oid1") ∈
      (git_delete_branch repo_with_lock_branch "x.lock" (some true)).2.refs := by
  refine ⟨rfl, ?_⟩
  decide

/-- Claim C10: `git_is_repo` always returns a successful boolean: a
discovery failure maps to `Ok(false)`, a success to `Ok(true)`. -/
theorem c10_is_repo_total (discover : String → Except String Unit) (path : String) :
    (∃ b, git_is_repo discover path = Except.ok b) ∧
    (∀ e, discover path = Except.error e → git_is_repo discover path = Except.ok false) ∧
    (∀ u, discover path = Except.ok u → git_is_repo discover path = Except.ok true) := by
  refine ⟨⟨exceptOk (discover path), rfl⟩, ?_, ?_⟩
  · intro e he
    simp [git_is_repo, open_repo, he, exceptOk]
  · intro u hu
    simp [git_is_repo, open_repo, hu, exceptOk]

/-- Witness for C10: a failing discovery oracle yields `Ok(false)`. -/
theorem c10_is_repo_total_witness :
    git_is_repo discover_fail "/tmp/nowhere" = Except.ok false :=
  (c10_is_repo_total discover_fail "/tmp/nowhere").2.1 "could not find repository" rfl

/-! Section: Theorems for C3 (RPC protocol) -/

/-- A parameter shape that fails to deserialize makes `parse_and_execute`
answer the `invalid_params` error. -/
theorem parse_and_execute_none {P : Type} (parse : Json → Option P)
    (handler : P → Except String Json) (params : Json)
    (h : (parse params).isSome = false) :
    parse_and_execute parse handler params = Except.error "invalid_params" := by
  unfold parse_and_execute
  cases hp : parse params with
  | none => rfl
  | some p => rw [hp] at h; simp at h

/-- A method outside the dispatch table dispatches to `unknown_method`. -/
theorem dispatch_unknown (ops : GitOps) (request : RpcRequest)
    (hnotin : request.method ∉ RPC_METHODS) :
    dispatch ops request = Except.error "unknown_method" := by
  unfold dispatch
  split <;> simp_all [RPC_METHODS]

/-- A method in the dispatch table whose parameters do not deserialize
dispatches to `invalid_params`. -/
theorem dispatch_invalid (ops : GitOps) (request : RpcRequest)
    (hmem : request.method ∈ RPC_METHODS)
    (hshape : params_shape_ok request.method request.params = false) :
    dispatch ops request = Except.error "invalid_params" := by
  unfold dispatch
  split <;>
    first
      | (apply parse_and_execute_none
         simp_all [params_shape_ok])
      | simp_all [RPC_METHODS]

/-- Claim C3 (amended): per connection, a read failure or end-of-stream
before any non-blank line abandons the connection with no response; blank
lines are skipped; the first non-blank line yields exactly one response;
an unparseable line yields the `unknown`-id response carrying the parse
error; an unknown method yields `unknown_method`; a parameter-shape
mismatch yields `invalid_params`. -/
theorem c3_rpc_protocol :
    (∀ parse ops, handle_stream parse ops [] = none) ∧
    (∀ parse ops e rest, handle_stream parse ops (Except.error e :: rest) = none) ∧
    (∀ parse ops line rest, blank line = true →
      handle_stream parse ops (Except.ok line :: rest) = handle_stream parse ops rest) ∧
    (∀ parse ops line rest, blank line = false →
      handle_stream parse ops (Except.ok line :: rest) = some (response_for parse ops line)) ∧
    (∀ parse ops line e, parse line = Except.error e →
      response_for parse ops line = ⟨"unknown", false, none, some e⟩) ∧
    (∀ ops request, request.method ∉ RPC_METHODS →
      handle_request ops request = ⟨request.id, false, none, some "unknown_method"⟩) ∧
    (∀ ops request, request.method ∈ RPC_METHODS →
      params_shape_ok request.method request.params = false →
      handle_request ops request = ⟨request.id, false, none, some "invalid_params"⟩) := by
  refine ⟨fun _ _ => rfl, fun _ _ _ _ => rfl, ?_, ?_, ?_, ?_, ?_⟩
  · intro parse ops line rest h
    simp [handle_stream, h]
  · intro parse ops line rest h
    simp [handle_stream, h]
  · intro parse ops line e h
    simp [response_for, h]
  · intro ops request h
    unfold handle_request
    rw [dispatch_unknown ops request h]
    rfl
  · intro ops request hmem hshape
    unfold handle_request
    rw [dispatch_invalid ops request hmem hshape]
    rfl

/-- Witness for C3: a failed read abandons; an unparseable non-blank line
yields the `unknown`-id response; an unknown method and a parameter
mismatch yield their protocol errors. -/
theorem c3_rpc_protocol_witness :
    handle_stream parse_fail ops0 [Except.error "broken pipe"] = none ∧
    handle_stream parse_fail ops0 [Except.ok "x"] =
      some ⟨"unknown", false, none, some "bad json"⟩ ∧
    handle_request ops0 ⟨"7", "nope", Json.null⟩ =
      ⟨"7", false, none, some "unknown_method"⟩ ∧
    handle_request ops0 ⟨"8", "git_is_repo", Json.null⟩ =
      ⟨"8", false, none, some "invalid_params"⟩ := by
  have h := c3_rpc_protocol
  refine ⟨h.2.1 parse_fail ops0 "broken pipe" [], ?_, ?_, ?_⟩
  · rw [h.2.2.2.1 parse_fail ops0 "x" [] (by decide)]
    rw [h.2.2.2.2.1 parse_fail ops0 "x" "bad json" rfl]
  · exact h.2.2.2.2.2.1 ops0 ⟨"7", "nope", Json.null⟩ (by decide)
  · exact h.2.2.2.2.2.2 ops0 ⟨"8", "git_is_repo", Json.null⟩ (by decide) rfl

/-- Counterexample for C3 as stated: a connection whose stream holds one
blank line and then ends is abandoned without a response, although no
read failure occurred — abandonment is not limited to read failures. -/
theorem c3_counterexample :
    handle_stream parse_fail ops0 [Except.ok ""] = none ∧
    ([Except.ok ""] : List (Except String String)).all (fun r => exceptOk r) = true :=
  ⟨rfl, rfl⟩

/-! Section: Helper lemmas for the watch pipeline -/

theorem mem_insert_set (s : List String) (x y : String) :
    y ∈ insert_set s x ↔ y ∈ s ∨ y = x := by
  unfold insert_set
  split
  · next h =>
    constructor
    · exact fun hy => Or.inl hy
    · rintro (hy | rfl)
      · exact hy
      · exact h
  · simp [List.mem_append]

theorem length_le_insert_set (s : List String) (x : String) :
    s.length ≤ (insert_set s x).length := by
  unfold insert_set
  split
  · exact Nat.le_refl _
  · simp

theorem insert_set_length_le (s : List String) (x : String) :
    (insert_set s x).length ≤ s.length + 1 := by
  unfold insert_set
  split
  · exact Nat.le_succ _
  · simp

theorem insert_set_eq_of_length_le (s : List String) (x : String)
    (h : (insert_set s x).length ≤ s.length) : insert_set s x = s := by
  by_cases hm : x ∈ s
  · simp [insert_set, hm]
  · exfalso
    simp [insert_set, hm, List.length_append] at h

/-- The capped path loop keeps the accumulator at or below capacity. -/
theorem insert_paths_length_le (filter : FilterConfig) (paths : List (List String)) :
    ∀ pending, pending.length ≤ MAX_PENDING_PATHS →
      (insert_paths filter pending paths).length ≤ MAX_PENDING_PATHS := by
  induction paths with
  | nil => intro pending h; exact h
  | cons p rest ih =>
    intro pending h
    unfold insert_paths
    split
    · exact h
    · next hcap =>
      split
      · apply ih
        have := insert_set_length_le pending
          (format_event_path p filter.worktree_path filter.git_dir)
        omega
      · exact ih pending h

/-- The uncapped path loop never shrinks the accumulator. -/
theorem length_le_insert_paths_unc (filter : FilterConfig) (paths : List (List String)) :
    ∀ pending, pending.length ≤ (insert_paths_unc filter pending paths).length := by
  induction paths with
  | nil => intro pending; exact Nat.le_refl _
  | cons p rest ih =>
    intro pending
    unfold insert_paths_unc
    split
    · exact Nat.le_trans (length_le_insert_set _ _) (ih _)
    · exact ih pending

/-- If the uncapped path loop did not grow the accumulator, it left it
unchanged. -/
theorem insert_paths_unc_eq_self (filter : FilterConfig) (paths : List (List String)) :
    ∀ pending, (insert_paths_unc filter pending paths).length ≤ pending.length →
      insert_paths_unc filter pending paths = pending := by
  induction paths with
  | nil => intro pending _; rfl
  | cons p rest ih =>
    intro pending h
    unfold insert_paths_unc at h ⊢
    by_cases hemit : should_emit_path p filter = true
    · rw [if_pos hemit] at h ⊢
      have h3 : (insert_set pending
          (format_event_path p filter.worktree_path filter.git_dir)).length ≤
          pending.length :=
        Nat.le_trans (length_le_insert_paths_unc filter rest _) h
      have h4 := insert_set_eq_of_length_le pending
        (format_event_path p filter.worktree_path filter.git_dir) h3
      rw [h4] at h ⊢
      exact ih pending h
    · rw [if_neg hemit] at h ⊢
      exact ih pending h

/-- Below the cap on the final size, the capped and uncapped path loops
agree. -/
theorem insert_paths_eq_unc (filter : FilterConfig) (paths : List (List String)) :
    ∀ pending, (insert_paths_unc filter pending paths).length ≤ MAX_PENDING_PATHS →
      insert_paths filter pending paths = insert_paths_unc filter pending paths := by
  induction paths with
  | nil => intro pending _; rfl
  | cons p rest ih =>
    intro pending h
    by_cases hcap : pending.length ≥ MAX_PENDING_PATHS
    · have hle : (insert_paths_unc filter pending (p :: rest)).length ≤ pending.length :=
        Nat.le_trans h hcap
      rw [insert_paths_unc_eq_self filter (p :: rest) pending hle]
      unfold insert_paths
      rw [if_pos hcap]
    · unfold insert_paths
      rw [if_neg hcap]
      unfold insert_paths_unc at h ⊢
      by_cases hemit : should_emit_path p filter = true
      · simp only [if_pos hemit] at h ⊢
        exact ih _ h
      · simp only [if_neg hemit] at h ⊢
        exact ih pending h

/-- The uncapped burst fold never shrinks the path accumulator. -/
theorem run_events_unc_paths_mono (filter : FilterConfig) (events : List FsEvent) :
    ∀ acc, acc.1.length ≤ (run_events_unc filter acc events).1.length := by
  induction events with
  | nil => intro acc; exact Nat.le_refl _
  | cons ev rest ih =>
    intro acc
    unfold run_events_unc
    refine Nat.le_trans ?_ (ih (collect_event_unc ev filter acc))
    unfold collect_event_unc
    split
    · exact Nat.le_refl _
    · exact length_le_insert_paths_unc filter ev.paths acc.1

/-- When the uncapped fold's final path count respects the cap, the capped
and uncapped folds agree completely. -/
theorem run_events_eq_unc (filter : FilterConfig) (events : List FsEvent) :
    ∀ acc, (run_events_unc filter acc events).1.length ≤ MAX_PENDING_PATHS →
      run_events filter acc events = run_events_unc filter acc events := by
  induction events with
  | nil => intro acc _; rfl
  | cons ev rest ih =>
    intro acc h
    unfold run_events_unc at h
    have hstep : (collect_event_unc ev filter acc).1.length ≤ MAX_PENDING_PATHS :=
      Nat.le_trans (run_events_unc_paths_mono filter rest (collect_event_unc ev filter acc)) h
    have hcc : collect_event ev filter acc = collect_event_unc ev filter acc := by
      by_cases hrel : (!is_relevant_kind ev.kind) = true
      · unfold collect_event collect_event_unc
        rw [if_pos hrel, if_pos hrel]
      · have hunc : collect_event_unc ev filter acc =
            (insert_paths_unc filter acc.1 ev.paths,
             insert_set acc.2 (kind_label ev.kind)) := by
          unfold collect_event_unc
          rw [if_neg hrel]
        have hlen0 : (insert_paths_unc filter acc.1 ev.paths).length ≤ MAX_PENDING_PATHS := by
          rw [hunc] at hstep
          exact hstep
        unfold collect_event
        rw [if_neg hrel, hunc]
        by_cases hcap : acc.1.length ≥ MAX_PENDING_PATHS
        · rw [if_pos hcap]
          rw [insert_paths_unc_eq_self filter ev.paths acc.1 (Nat.le_trans hlen0 hcap)]
        · rw [if_neg hcap]
          rw [insert_paths_eq_unc filter ev.paths acc.1 hlen0]
    unfold run_events
    rw [hcc]
    exact ih (collect_event_unc ev filter acc) h

/-- Membership in the uncapped path loop's result. -/
theorem mem_insert_paths_unc (filter : FilterConfig) (paths : List (List String)) :
    ∀ pending x, x ∈ insert_paths_unc filter pending paths ↔
      x ∈ pending ∨ ∃ p ∈ paths, should_emit_path p filter = true ∧
        format_event_path p filter.worktree_path filter.git_dir = x := by
  induction paths with
  | nil => intro pending x; simp [insert_paths_unc]
  | cons p rest ih =>
    intro pending x
    unfold insert_paths_unc
    by_cases hemit : should_emit_path p filter = true
    · rw [if_pos hemit, ih, mem_insert_set]
      simp only [List.mem_cons]
      constructor
      · rintro ((hx | rfl) | ⟨q, hq, hs, hf⟩)
        · exact Or.inl hx
        · exact Or.inr ⟨p, Or.inl rfl, hemit, rfl⟩
        · exact Or.inr ⟨q, Or.inr hq, hs, hf⟩
      · rintro (hx | ⟨q, hq | hq, hs, hf⟩)
        · exact Or.inl (Or.inl hx)
        · subst hq
          exact Or.inl (Or.inr hf.symm)
        · exact Or.inr ⟨q, hq, hs, hf⟩
    · rw [if_neg hemit, ih]
      simp only [List.mem_cons]
      constructor
      · rintro (hx | ⟨q, hq, hs, hf⟩)
        · exact Or.inl hx
        · exact Or.inr ⟨q, Or.inr hq, hs, hf⟩
      · rintro (hx | ⟨q, hq | hq, hs, hf⟩)
        · exact Or.inl hx
        · subst hq
          exact absurd hs hemit
        · exact Or.inr ⟨q, hq, hs, hf⟩

/-- Membership in the path accumulator after one uncapped event. -/
theorem mem_collect_event_unc_paths (ev : FsEvent) (filter : FilterConfig)
    (acc : List String × List String) (x : String) :
    x ∈ (collect_event_unc ev filter acc).1 ↔
      x ∈ acc.1 ∨ (is_relevant_kind ev.kind = true ∧
        ∃ p ∈ ev.paths, should_emit_path p filter = true ∧
          format_event_path p filter.worktree_path filter.git_dir = x) := by
  unfold collect_event_unc
  by_cases hrel : (!is_relevant_kind ev.kind) = true
  · rw [if_pos hrel]
    have h2 : is_relevant_kind ev.kind = false := by simpa using hrel
    simp [h2]
  · rw [if_neg hrel]
    have h2 : is_relevant_kind ev.kind = true := by simpa using hrel
    dsimp only
    rw [mem_insert_paths_unc]
    simp [h2]

/-- Membership in the kind accumulator after one uncapped event. -/
theorem mem_collect_event_unc_kinds (ev : FsEvent) (filter : FilterConfig)
    (acc : List String × List String) (k : String) :
    k ∈ (collect_event_unc ev filter acc).2 ↔
      k ∈ acc.2 ∨ (is_relevant_kind ev.kind = true ∧ kind_label ev.kind = k) := by
  unfold collect_event_unc
  by_cases hrel : (!is_relevant_kind ev.kind) = true
  · rw [if_pos hrel]
    have h2 : is_relevant_kind ev.kind = false := by simpa using hrel
    simp [h2]
  · rw [if_neg hrel]
    have h2 : is_relevant_kind ev.kind = true := by simpa using hrel
    dsimp only
    rw [mem_insert_set]
    simp [h2, eq_comm]

/-- The uncapped burst fold's path set is the union of the filtered,
rewritten paths of the burst. -/
theorem mem_run_events_unc_paths (filter : FilterConfig) (events : List FsEvent) :
    ∀ acc x, x ∈ (run_events_unc filter acc events).1 ↔
      x ∈ acc.1 ∨ ∃ ev ∈ events, is_relevant_kind ev.kind = true ∧
        ∃ p ∈ ev.paths, should_emit_path p filter = true ∧
          format_event_path p filter.worktree_path filter.git_dir = x := by
  induction events with
  | nil => intro acc x; simp [run_events_unc]
  | cons ev rest ih =>
    intro acc x
    unfold run_events_unc
    rw [ih, mem_collect_event_unc_paths]
    simp only [List.mem_cons]
    constructor
    · rintro ((hx | hev) | ⟨e2, he2, h2⟩)
      · exact Or.inl hx
      · exact Or.inr ⟨ev, Or.inl rfl, hev⟩
      · exact Or.inr ⟨e2, Or.inr he2, h2⟩
    · rintro (hx | ⟨e2, he2 | he2, h2⟩)
      · exact Or.inl (Or.inl hx)
      · subst he2
        exact Or.inl (Or.inr h2)
      · exact Or.inr ⟨e2, he2, h2⟩

/-- The uncapped burst fold's kind set is the union of the labels of the
relevant (non-access) events of the burst. -/
theorem mem_run_events_unc_kinds (filter : FilterConfig) (events : List FsEvent) :
    ∀ acc k, k ∈ (run_events_unc filter acc events).2 ↔
      k ∈ acc.2 ∨ ∃ ev ∈ events, is_relevant_kind ev.kind = true ∧
        kind_label ev.kind = k := by
  induction events with
  | nil => intro acc k; simp [run_events_unc]
  | cons ev rest ih =>
    intro acc k
    unfold run_events_unc
    rw [ih, mem_collect_event_unc_kinds]
    simp only [List.mem_cons]
    constructor
    · rintro ((hx | hev) | ⟨e2, he2, h2⟩)
      · exact Or.inl hx
      · exact Or.inr ⟨ev, Or.inl rfl, hev⟩
      · exact Or.inr ⟨e2, Or.inr he2, h2⟩
    · rintro (hx | ⟨e2, he2 | he2, h2⟩)
      · exact Or.inl (Or.inl hx)
      · subst he2
        exact Or.inl (Or.inr h2)
      · exact Or.inr ⟨e2, he2, h2⟩

/-- The capped path loop never shrinks the accumulator. -/
theorem length_le_insert_paths (filter : FilterConfig) (paths : List (List String)) :
    ∀ pending, pending.length ≤ (insert_paths filter pending paths).length := by
  induction paths with
  | nil => intro pending; exact Nat.le_refl _
  | cons p rest ih =>
    intro pending
    unfold insert_paths
    split
    · exact Nat.le_refl _
    · split
      · exact Nat.le_trans (length_le_insert_set _ _) (ih _)
      · exact ih pending

/-- The capped path loop is the identity when the filter rejects every
path. -/
theorem insert_paths_rejected (filter : FilterConfig) (paths : List (List String)) :
    ∀ pending, (∀ p ∈ paths, should_emit_path p filter = false) →
      insert_paths filter pending paths = pending := by
  induction paths with
  | nil => intro pending _; rfl
  | cons p rest ih =>
    intro pending h
    unfold insert_paths
    split
    · rfl
    · rw [if_neg (by simp [h p (List.mem_cons_self p rest)])]
      exact ih pending (fun q hq => h q (List.mem_cons_of_mem p hq))

/-- If every path of every burst event is rejected by the filter, the path
accumulator stays empty. -/
theorem run_events_paths_nil (filter : FilterConfig) (events : List FsEvent) :
    ∀ acc, acc.1 = [] →
      (∀ ev ∈ events, ∀ p ∈ ev.paths, should_emit_path p filter = false) →
      (run_events filter acc events).1 = [] := by
  induction events with
  | nil => intro acc h _; exact h
  | cons ev rest ih =>
    intro acc hnil h
    unfold run_events
    apply ih
    · unfold collect_event
      by_cases hrel : (!is_relevant_kind ev.kind) = true
      · rw [if_pos hrel]
        exact hnil
      · rw [if_neg hrel]
        by_cases hcap : acc.1.length ≥ MAX_PENDING_PATHS
        · rw [if_pos hcap]
          exact hnil
        · rw [if_neg hcap]
          dsimp only
          rw [insert_paths_rejected filter ev.paths acc.1
            (fun p hp => h ev (List.mem_cons_self ev rest) p hp)]
          exact hnil
    · intro e he p hp
      exact h e (List.mem_cons_of_mem ev he) p hp

/-! Section: Theorems for C5, C6 and C9 (watch pipeline) -/

/-- Claim C5 (amended): one debounce window's burst (the worker loop is
modelled as: accumulate the burst, then flush once when the window
elapses) yields exactly one emitted WatchEvent provided at least one path
of the burst survives the filter; its path set is the union of the
filtered, rewritten paths of the burst, and its kind set is the union of
the labels of the relevant (non-access) events. -/
theorem c5_burst_coalescing (filter : FilterConfig) (events : List FsEvent)
    (hcap : (collect_burst_unc filter events).1.length ≤ MAX_PENDING_PATHS)
    (hne : (collect_burst_unc filter events).1 ≠ []) :
    process_burst filter events =
      some ⟨(collect_burst_unc filter events).1, (collect_burst_unc filter events).2⟩ ∧
    (∀ x, x ∈ (collect_burst_unc filter events).1 ↔
      ∃ ev ∈ events, is_relevant_kind ev.kind = true ∧
        ∃ p ∈ ev.paths, should_emit_path p filter = true ∧
          format_event_path p filter.worktree_path filter.git_dir = x) ∧
    (∀ k, k ∈ (collect_burst_unc filter events).2 ↔
      ∃ ev ∈ events, is_relevant_kind ev.kind = true ∧ kind_label ev.kind = k) := by
  have heq : collect_burst filter events = collect_burst_unc filter events :=
    run_events_eq_unc filter events ([], []) hcap
  refine ⟨?_, ?_, ?_⟩
  · unfold process_burst
    rw [heq]
    unfold flush_events
    rw [if_neg (by simpa [List.isEmpty_iff] using hne)]
  · intro x
    have := mem_run_events_unc_paths filter events ([], []) x
    simpa [collect_burst_unc] using this
  · intro k
    have := mem_run_events_unc_kinds filter events ([], []) k
    simpa [collect_burst_unc] using this

/-- Witness for C5: a one-event burst on a source file emits one event
carrying the rewritten path and the kind label. -/
theorem c5_burst_coalescing_witness :
    process_burst watch_filter0 [ev_src] = some ⟨["src/a"], ["modify"]⟩ := by
  have h := (c5_burst_coalescing watch_filter0 [ev_src] (by decide) (by decide)).1
  rw [h]
  decide

/-- Counterexample for C5 as stated: a burst of one event whose only path
is rejected by the ignore filter emits no WatchEvent at all, not one. -/
theorem c5_counterexample :
    (process_burst watch_filter0 [ev_ignored]).isSome = false ∧
    1 ≤ [ev_ignored].length :=
  ⟨rfl, by decide⟩

/-- Claim C6: the pending-path accumulator never exceeds the cap; once at
the cap, a further relevant event leaves the paths unchanged while its
kind label is still accumulated, and the flush that ends the window still
emits (the "something changed" signal survives). -/
theorem c6_path_cap (filter : FilterConfig) (event : FsEvent)
    (pending : List String × List String) :
    (pending.1.length ≤ MAX_PENDING_PATHS →
      (collect_event event filter pending).1.length ≤ MAX_PENDING_PATHS) ∧
    (pending.1.length ≥ MAX_PENDING_PATHS → is_relevant_kind event.kind = true →
      collect_event event filter pending =
        (pending.1, insert_set pending.2 (kind_label event.kind))) ∧
    (pending.1.length ≥ MAX_PENDING_PATHS →
      (flush_events (collect_event event filter pending)).1.isSome = true) := by
  have hpaths : (collect_event event filter pending).1 = pending.1 ∨
      (collect_event event filter pending).1 = insert_paths filter pending.1 event.paths := by
    unfold collect_event
    by_cases hrel : (!is_relevant_kind event.kind) = true
    · rw [if_pos hrel]
      exact Or.inl rfl
    · rw [if_neg hrel]
      by_cases hcap : pending.1.length ≥ MAX_PENDING_PATHS
      · rw [if_pos hcap]
        exact Or.inl rfl
      · rw [if_neg hcap]
        exact Or.inr rfl
  refine ⟨?_, ?_, ?_⟩
  · intro hle
    rcases hpaths with h | h
    · rw [h]; exact hle
    · rw [h]; exact insert_paths_length_le filter event.paths pending.1 hle
  · intro hcap hrel
    unfold collect_event
    rw [if_neg (by simp [hrel]), if_pos hcap]
  · intro hcap
    have hne : pending.1 ≠ [] := by
      intro h0
      rw [h0] at hcap
      simp [MAX_PENDING_PATHS] at hcap
    have hne2 : (collect_event event filter pending).1 ≠ [] := by
      rcases hpaths with h | h
      · rw [h]; exact hne
      · rw [h]
        intro h0
        have hmono := length_le_insert_paths filter event.paths pending.1
        rw [h0] at hmono
        simp only [List.length_nil, Nat.le_zero] at hmono
        exact hne (List.length_eq_zero.mp hmono)
    unfold flush_events
    rw [if_neg (by simpa [List.isEmpty_iff] using hne2)]
    rfl

/-- Witness for C6: an at-capacity accumulator hit by a modify event keeps
its paths, gains the kind, and still flushes an event. -/
theorem c6_path_cap_witness :
    collect_event ev_src watch_filter0 (at_cap_paths, []) = (at_cap_paths, ["modify"]) ∧
    (flush_events (collect_event ev_src watch_filter0 (at_cap_paths, []))).1.isSome = true := by
  have hlen : (at_cap_paths, ([] : List String)).1.length ≥ MAX_PENDING_PATHS := by
    show (List.replicate 10000 "f").length ≥ MAX_PENDING_PATHS
    rw [List.length_replicate]
    exact Nat.le_refl _
  have h := c6_path_cap watch_filter0 ev_src (at_cap_paths, [])
  refine ⟨?_, h.2.2 hlen⟩
  rw [h.2.1 hlen rfl]
  rfl

/-- Claim C9: a flush at the end of a window with an empty filtered-path
set emits nothing and discards the accumulated kinds; in particular a
burst whose every path the filter rejects produces no WatchEvent. -/
theorem c9_empty_flush (filter : FilterConfig) (events : List FsEvent)
    (kinds : List String) :
    flush_events ([], kinds) = (none, ([], [])) ∧
    ((∀ ev ∈ events, ∀ p ∈ ev.paths, should_emit_path p filter = false) →
      process_burst filter events = none) := by
  refine ⟨rfl, ?_⟩
  intro h
  unfold process_burst
  have hnil : (collect_burst filter events).1 = [] :=
    run_events_paths_nil filter events ([], []) rfl h
  unfold flush_events
  rw [if_pos (by simpa [List.isEmpty_iff] using hnil)]

/-- Witness for C9: the kinds of an all-rejected burst are discarded and
nothing is emitted. -/
theorem c9_empty_flush_witness :
    flush_events ([], ["modify"]) = (none, ([], [])) ∧
    process_burst watch_filter0 [ev_ignored] = none :=
  ⟨(c9_empty_flush watch_filter0 [] ["modify"]).1,
   (c9_empty_flush watch_filter0 [ev_ignored] []).2 (by decide)⟩

end Forks
